import Mathlib

/-!
Shallow embedding of the person CRUD service
(`src/services/person_service.py`, `src/routers/people.py`,
`src/schemas/person.py`, `src/models/person.py`, and the store schema from
`src/alembic/versions/2fd966bad3ef_create_person_table.py`).

The record store is modelled as a `List Person` in insertion order.
Timestamps are modelled as natural numbers (the store's `CURRENT_TIMESTAMP`
is passed in explicitly as `now`).
-/

namespace TeamComposer

/-- A row of the `people` table (`src/models/person.py`): string primary key
`id`, the two external identifiers, three name fields, and two timestamps.
All columns are NOT NULL with empty-string defaults. -/
structure Person where
  id : String
  login_id : String
  person_id : String
  name_first : String
  name_middle : String
  name_last : String
  created_at : Nat
  updated_at : Nat
deriving DecidableEq

/-- Schema `PersonCreate` (`src/schemas/person.py`): all five payload fields are
plain strings defaulting to the empty string when omitted. -/
structure PersonCreate where
  login_id : String := ""
  person_id : String := ""
  name_first : String := ""
  name_middle : String := ""
  name_last : String := ""
deriving DecidableEq

/-- Schema `PersonUpdate` (`src/schemas/person.py`): every field is optional,
`none` meaning "absent from the patch". A field set to `some ""` is present
(clear to empty string), distinct from `none` (leave untouched). -/
structure PersonUpdate where
  login_id : Option String := none
  person_id : Option String := none
  name_first : Option String := none
  name_middle : Option String := none
  name_last : Option String := none
deriving DecidableEq

/-- Store insert (the `session.add` / `commit` pair as constrained by the
migration `2fd966bad3ef`): `id` is the primary key and `login_id` and
`person_id` each carry a column-level UNIQUE constraint. SQLite applies
UNIQUE to every stored value including the empty string (only NULL is
exempt, and these columns are NOT NULL), so the insert fails with an
integrity error when any existing row shares the new row's `id`,
`login_id` or `person_id`. -/
def dbInsert (db : List Person) (p : Person) : Except String (List Person) :=
  if db.any (fun q => q.id == p.id || q.login_id == p.login_id || q.person_id == p.person_id) then
    Except.error "UNIQUE constraint failed"
  else
    Except.ok (db ++ [p])

/-- Store commit of a mutated row (the `commit` in `update_person`): the
UNIQUE constraints reject the commit when a DIFFERENT row already holds the
mutated row's `login_id` or `person_id`; otherwise the row with the same
primary key is replaced, and the `update_people_updated_at` trigger from
migration `2fd966bad3ef` refreshes its `updated_at` to the current
timestamp. -/
def dbCommitUpdate (db : List Person) (p2 : Person) (now : Nat) : Except String (List Person) :=
  if db.any (fun q => q.id != p2.id && (q.login_id == p2.login_id || q.person_id == p2.person_id)) then
    Except.error "UNIQUE constraint failed"
  else
    Except.ok (db.map (fun q => if q.id == p2.id then { p2 with updated_at := now } else q))

/-- Service `PersonService.get_person_by_id`: first row whose `id` matches. -/
def get_person_by_id (db : List Person) (pid : String) : Option Person :=
  db.find? (fun p => p.id == pid)

/-- Service `PersonService.get_person_by_mayo_login_id`: first row whose `login_id`
matches. -/
def get_person_by_mayo_login_id (db : List Person) (lid : String) : Option Person :=
  db.find? (fun p => p.login_id == lid)

/-- Service `PersonService.get_person_by_mayo_person_id`: first row whose
`person_id` matches. -/
def get_person_by_mayo_person_id (db : List Person) (pid : String) : Option Person :=
  db.find? (fun p => p.person_id == pid)

/-- Service `PersonService.get_people`: `query.offset(skip).limit(limit).all()` over
the insertion-ordered table. -/
def get_people (db : List Person) (skip limit : Nat) : List Person :=
  (db.drop skip).take limit

/-- Service `PersonService.create_person`: builds the new row from the payload (the
model generates a fresh `id`; the store stamps both timestamps) and asks the
store to insert it; an integrity error is rolled back and re-raised as
`ValueError "Person creation failed: ..."`. -/
def create_person (db : List Person) (input : PersonCreate) (newId : String) (now : Nat) :
    Except String (Person × List Person) :=
  let p : Person :=
    { id := newId
      login_id := input.login_id
      person_id := input.person_id
      name_first := input.name_first
      name_middle := input.name_middle
      name_last := input.name_last
      created_at := now
      updated_at := now }
  match dbInsert db p with
  | Except.ok db2 => Except.ok (p, db2)
  | Except.error e => Except.error ("Person creation failed: " ++ e)

/-- The merge loop of `PersonService.update_person`: `model_dump`
with None values excluded, then `setattr` for each present field. Absent
(`none`) fields keep the stored value; present fields (including
`some ""`) overwrite it. `id`, `created_at` and `updated_at` are not
touched by the loop. -/
def applyPatch (p : Person) (u : PersonUpdate) : Person :=
  { p with
    login_id := u.login_id.getD p.login_id
    person_id := u.person_id.getD p.person_id
    name_first := u.name_first.getD p.name_first
    name_middle := u.name_middle.getD p.name_middle
    name_last := u.name_last.getD p.name_last }

/-- Result of `PersonService.update_person`: `None` (not found), the
refreshed row, or the raised `ValueError`. -/
inductive UpdateOutcome where
  | notFound
  | updated (p : Person)
  | failed (msg : String)
deriving DecidableEq

/-- Service `PersonService.update_person`: look the row up by `id` (returning
`None` with no store mutation when absent), merge the patch, then commit;
an integrity error is rolled back (state unchanged) and re-raised as
`ValueError "Person update failed: ..."`. -/
def update_person (db : List Person) (pid : String) (u : PersonUpdate) (now : Nat) :
    UpdateOutcome × List Person :=
  match get_person_by_id db pid with
  | none => (UpdateOutcome.notFound, db)
  | some p =>
    match dbCommitUpdate db (applyPatch p u) now with
    | Except.ok db2 => (UpdateOutcome.updated { applyPatch p u with updated_at := now }, db2)
    | Except.error e => (UpdateOutcome.failed ("Person update failed: " ++ e), db)

/-- Service `PersonService.delete_person`: look up by `id`; `False` when absent,
else delete the row (SQL `DELETE` by primary key) and return `True`. -/
def delete_person (db : List Person) (pid : String) : Bool × List Person :=
  match get_person_by_id db pid with
  | none => (false, db)
  | some _ => (true, db.filter (fun q => q.id != pid))

/-- Service `PersonService.count_people`: total row count. -/
def count_people (db : List Person) : Nat :=
  db.length

/-- One point query issued by `person_exists_by_mayo_ids` against the
store, recorded so that "does not query `person_id`" is provable. -/
inductive StoreQuery where
  | byLoginId (s : String)
  | byPersonId (s : String)
deriving DecidableEq

/-- Python truthiness of an optional string parameter defaulting to
`None`: truthy iff present and non-empty. -/
def truthy : Option String → Bool
  | none => false
  | some s => s != ""

/-- Service `PersonService.person_exists_by_mayo_ids`: `if login_id:` query by
`login_id` and return `True` on a hit; then `if person_id:` query by
`person_id` and return `True` on a hit; else `False`. The second component
logs the point queries actually issued, in order. -/
def person_exists_by_mayo_ids (db : List Person) (lid pid : Option String) :
    Bool × List StoreQuery :=
  if truthy lid then
    let l := lid.getD ""
    if (get_person_by_mayo_login_id db l).isSome then
      (true, [StoreQuery.byLoginId l])
    else if truthy pid then
      let v := pid.getD ""
      ((get_person_by_mayo_person_id db v).isSome,
        [StoreQuery.byLoginId l, StoreQuery.byPersonId v])
    else
      (false, [StoreQuery.byLoginId l])
  else if truthy pid then
    let v := pid.getD ""
    ((get_person_by_mayo_person_id db v).isSome, [StoreQuery.byPersonId v])
  else
    (false, [])

/-- Response of the create route (`POST /people/` in
`src/routers/people.py`): 201 with the row, 409 naming the offending field
and value, or 400 with the service's error text. -/
inductive CreateResponse where
  | created (p : Person)
  | conflict (field value : String)
  | badRequest (msg : String)
deriving DecidableEq

/-- Handler `create_person` (`src/routers/people.py`): pre-check `login_id`
first (`if person_data.login_id and ...` — Python truthiness, so the empty
string skips the check), then `person_id`, each answering 409 naming the
field and value; only if both pre-checks pass is the service's
`create_person` called, whose `ValueError` maps to 400. The state component
is the store after the call. -/
def create_person_handler (db : List Person) (input : PersonCreate) (newId : String) (now : Nat) :
    CreateResponse × List Person :=
  if input.login_id != "" && (get_person_by_mayo_login_id db input.login_id).isSome then
    (CreateResponse.conflict "login_id" input.login_id, db)
  else if input.person_id != "" && (get_person_by_mayo_person_id db input.person_id).isSome then
    (CreateResponse.conflict "person_id" input.person_id, db)
  else
    match create_person db input newId now with
    | Except.ok (p, db2) => (CreateResponse.created p, db2)
    | Except.error e => (CreateResponse.badRequest e, db)

/-- Response of the update route (`PUT /people/{id}`): 200 with the row,
404, 409 naming the field and value, or 400. -/
inductive UpdateResponse where
  | ok (p : Person)
  | notFound
  | conflict (field value : String)
  | badRequest (msg : String)
deriving DecidableEq

/-- Tail of the update handler once both pre-checks have passed: delegate
to the service's `update_person`; a `ValueError` maps to 400. -/
def update_delegate (db : List Person) (pid : String) (u : PersonUpdate) (now : Nat) :
    UpdateResponse × List Person :=
  match update_person db pid u now with
  | (UpdateOutcome.updated p, db2) => (UpdateResponse.ok p, db2)
  | (UpdateOutcome.failed m, db2) => (UpdateResponse.badRequest m, db2)
  | (UpdateOutcome.notFound, db2) => (UpdateResponse.notFound, db2)

/-- Second pre-check of the update handler: only when `person_id` is
present in the patch (`"person_id" in update_data`, after dropping None
values) look it up, and 409 only when the hit is a DIFFERENT row
(`existing.id != person_id` in the route). -/
def update_precheck_person_id (db : List Person) (pid : String) (u : PersonUpdate) (now : Nat) :
    UpdateResponse × List Person :=
  match u.person_id with
  | some v =>
    match get_person_by_mayo_person_id db v with
    | some q =>
      if q.id != pid then (UpdateResponse.conflict "person_id" v, db)
      else update_delegate db pid u now
    | none => update_delegate db pid u now
  | none => update_delegate db pid u now

/-- Handler `update_person` (`src/routers/people.py`): 404 when the id does
not exist; otherwise run the `login_id` pre-check (only when present in the
patch, and a hit on the target row itself is not a conflict), then the
`person_id` pre-check, then delegate to the service. -/
def update_person_handler (db : List Person) (pid : String) (u : PersonUpdate) (now : Nat) :
    UpdateResponse × List Person :=
  match get_person_by_id db pid with
  | none => (UpdateResponse.notFound, db)
  | some _ =>
    match u.login_id with
    | some l =>
      match get_person_by_mayo_login_id db l with
      | some q =>
        if q.id != pid then (UpdateResponse.conflict "login_id" l, db)
        else update_precheck_person_id db pid u now
      | none => update_precheck_person_id db pid u now
    | none => update_precheck_person_id db pid u now

/-- SQL `LIKE` pattern matching over character lists (the store's matcher
behind `Person.name_first.ilike(...)`): `%` matches any run of characters,
`_` matches exactly one character, every other pattern character matches
itself. The route passes the query straight into the pattern, so these two
metacharacters keep their wildcard meaning. -/
def likeMatch : List Char → List Char → Bool
  | [], [] => true
  | [], _ :: _ => false
  | c :: ps, s =>
    if c = '%' then
      likeMatch ps s ||
        (match s with
         | [] => false
         | _ :: s2 => likeMatch (c :: ps) s2)
    else
      match s with
      | [] => false
      | d :: s2 => (c == '_' || c == d) && likeMatch ps s2
  termination_by ps s => (s.length, ps.length)

/-- Case folding applied by `ilike` to both operands: lowercase each
character (ASCII, as SQLite's case-insensitive comparison does). -/
def lowerChars (s : String) : List Char :=
  s.toList.map Char.toLower

/-- One disjunct of the filter in `search_people_by_name`:
`column.ilike(f"%\x7bname_query\x7d%")`, i.e. `LIKE` of the lowercased
column value against the lowercased pattern `"%" ++ query ++ "%"` (and
lowercasing fixes `%`, so the lowered pattern is `%` ++ lowered query ++
`%`). -/
def nameLike (q s : String) : Bool :=
  likeMatch ('%' :: (lowerChars q ++ ['%'])) (lowerChars s)

/-- The WHERE clause of `search_people_by_name`: the pattern matches
`name_first` OR `name_middle` OR `name_last`. -/
def personNameMatch (q : String) (p : Person) : Bool :=
  nameLike q p.name_first || nameLike q p.name_middle || nameLike q p.name_last

/-- Service `PersonService.search_people_by_name`: filter by the name pattern, then
`offset(skip).limit(limit)`. -/
def search_people_by_name (db : List Person) (q : String) (skip limit : Nat) : List Person :=
  ((db.filter (personNameMatch q)).drop skip).take limit

/-- Modelled from the spec's words ("`query` is a case-insensitive
substring of `name_first` OR `name_middle` OR `name_last`"): literal
prefix test on character lists, no wildcard interpretation. -/
def startsWithL : List Char → List Char → Bool
  | [], _ => true
  | _ :: _, [] => false
  | c :: qs, d :: ss => c == d && startsWithL qs ss

/-- Modelled from the spec's words: literal substring test on character
lists — `q` occurs contiguously somewhere in `s`. -/
def substrL (q : List Char) : List Char → Bool
  | [] => startsWithL q []
  | d :: s2 => startsWithL q (d :: s2) || substrL q s2

/-- Modelled from the spec's words: case-insensitive substring test,
comparing both strings lowercased. -/
def containsCI (q s : String) : Bool :=
  substrL (lowerChars q) (lowerChars s)

/-- The query contains no `LIKE` metacharacter (`%` or `_`). -/
def noWild (l : List Char) : Bool :=
  l.all (fun c => !(c == '%') && !(c == '_'))

/-- A concrete one-row store used for instantiations: empty `login_id`,
`person_id` `"p1"`. -/
def rowA : Person :=
  { id := "a"
    login_id := ""
    person_id := "p1"
    name_first := "John"
    name_middle := ""
    name_last := "Doe"
    created_at := 0
    updated_at := 0 }

/-- A concrete create request with empty `login_id` and a fresh
`person_id`. -/
def reqEmptyLogin : PersonCreate := { person_id := "p2" }

/-!  Theorems settling the claims. -/

/-- C7. When no record has the target id, `update_person` answers
not-found and the store state after the call is the state before it: no
record is mutated and no commit happens. -/
theorem update_person_not_found (db : List Person) (pid : String) (u : PersonUpdate) (now : Nat)
    (h : get_person_by_id db pid = none) :
    update_person db pid u now = (UpdateOutcome.notFound, db) := by
  simp [update_person, h]

/-- Witness for C7 at a concrete store: id `"zz"` is absent from
`[rowA]`. -/
theorem update_person_not_found_witness :
    update_person [rowA] "zz" {} 5 = (UpdateOutcome.notFound, [rowA]) :=
  update_person_not_found [rowA] "zz" {} 5 (by decide)

/-- C8. `delete_person` returns `true` exactly when a record with the id
existed, removing every such record and nothing else; on a missing id it
returns `false` and leaves the store untouched, so a second delete of the
same id returns `false` on the unchanged store. -/
theorem delete_person_boolean (db : List Person) (pid : String) :
    ((delete_person db pid).1 = (get_person_by_id db pid).isSome)
    ∧ (get_person_by_id db pid = none → delete_person db pid = (false, db))
    ∧ (get_person_by_id (delete_person db pid).2 pid = none)
    ∧ (delete_person (delete_person db pid).2 pid = (false, (delete_person db pid).2))
    ∧ (∀ q, q ∈ db → q.id ≠ pid → q ∈ (delete_person db pid).2) := by
  have hmiss : ∀ x : List Person, get_person_by_id x pid = none →
      delete_person x pid = (false, x) := by
    intro x hx; simp [delete_person, hx]
  have hgone : get_person_by_id (delete_person db pid).2 pid = none := by
    cases h : get_person_by_id db pid with
    | none => simp [delete_person, h]
    | some p =>
      simp only [delete_person, h]
      refine List.find?_eq_none.mpr ?_
      intro x hx
      have hmem := List.mem_filter.mp hx
      simpa using hmem.2
  refine ⟨?_, ?_, hgone, hmiss _ hgone, ?_⟩
  · cases h : get_person_by_id db pid <;> simp [delete_person, h]
  · intro h; exact hmiss db h
  · intro q hq hne
    cases h : get_person_by_id db pid with
    | none => simpa [delete_person, h] using hq
    | some p =>
      simp only [delete_person, h]
      exact List.mem_filter.mpr ⟨hq, by simpa using hne⟩

/-- Witness for C8: the unconditional conjuncts instantiated on the
one-row store; the conditional conjunct discharged on the empty store. -/
theorem delete_person_boolean_witness :
    get_person_by_id ([] : List Person) "a" = none ∧ delete_person [] "a" = (false, []) :=
  ⟨by decide, (delete_person_boolean [] "a").2.1 (by decide)⟩

/-- C6. `get_people` paginates the insertion-ordered store: element `i` of
the page is element `skip + i` of the table when `i < limit`, the page
holds at most `limit` records, and on a three-row store the page
`skip = 10, limit = 5` is empty. -/
theorem get_people_paginates (db : List Person) (skip limit : Nat)
    (_hlo : 1 ≤ limit) (_hhi : limit ≤ 1000) :
    ((get_people db skip limit).length ≤ limit
    ∧ (∀ i : Nat, i < limit → (get_people db skip limit)[i]? = db[skip + i]?)
    ∧ (∀ i : Nat, limit ≤ i → (get_people db skip limit)[i]? = none)
    ∧ (count_people db = 3 → get_people db 10 5 = [])) := by
  refine ⟨?_, ?_, ?_, ?_⟩
  · simp [get_people]
  · intro i hi
    simp [get_people, List.getElem?_take_of_lt hi, List.getElem?_drop]
  · intro i hi
    refine List.getElem?_eq_none ?_
    simp [get_people]
    omega
  · intro h3
    simp [count_people] at h3
    have hlen : db.length ≤ 10 := by omega
    simp [get_people, List.drop_eq_nil_of_le hlen]

/-- Witness for C6 at a concrete three-row store and page. -/
theorem get_people_paginates_witness :
    get_people [rowA, rowA, rowA] 10 5 = [] :=
  (get_people_paginates [rowA, rowA, rowA] 10 5 (by decide) (by decide)).2.2.2 (by decide)

/-- C4. `person_exists_by_mayo_ids` short-circuits: a provided non-empty
`login_id` is looked up first and a hit answers `true` with no `person_id`
query; the `person_id` lookup runs only when `login_id` was absent/empty
or missed; with neither identifier provided (or both empty) it answers
`false` having issued no query at all. -/
theorem person_exists_short_circuit (db : List Person) (lid pid : Option String) :
    (truthy lid = true →
      (get_person_by_mayo_login_id db (lid.getD "")).isSome = true →
      person_exists_by_mayo_ids db lid pid = (true, [StoreQuery.byLoginId (lid.getD "")]))
    ∧ (truthy lid = true →
      get_person_by_mayo_login_id db (lid.getD "") = none → truthy pid = true →
      person_exists_by_mayo_ids db lid pid =
        ((get_person_by_mayo_person_id db (pid.getD "")).isSome,
          [StoreQuery.byLoginId (lid.getD ""), StoreQuery.byPersonId (pid.getD "")]))
    ∧ (truthy lid = true →
      get_person_by_mayo_login_id db (lid.getD "") = none → truthy pid = false →
      person_exists_by_mayo_ids db lid pid = (false, [StoreQuery.byLoginId (lid.getD "")]))
    ∧ (truthy lid = false → truthy pid = true →
      person_exists_by_mayo_ids db lid pid =
        ((get_person_by_mayo_person_id db (pid.getD "")).isSome,
          [StoreQuery.byPersonId (pid.getD "")]))
    ∧ (truthy lid = false → truthy pid = false →
      person_exists_by_mayo_ids db lid pid = (false, [])) := by
  refine ⟨?_, ?_, ?_, ?_, ?_⟩
  · intro h1 h2; simp [person_exists_by_mayo_ids, h1, h2]
  · intro h1 h2 h3; simp [person_exists_by_mayo_ids, h1, h2, h3]
  · intro h1 h2 h3; simp [person_exists_by_mayo_ids, h1, h2, h3]
  · intro h1 h2; simp [person_exists_by_mayo_ids, h1, h2]
  · intro h1 h2; simp [person_exists_by_mayo_ids, h1, h2]

/-- Witness for C4: `loginId = "X"` provided, no `personId`, no record with
`login_id = "X"`: the result is `false` and only the `login_id` query was
issued. -/
theorem person_exists_short_circuit_witness :
    person_exists_by_mayo_ids [rowA] (some "X") none = (false, [StoreQuery.byLoginId "X"]) :=
  (person_exists_short_circuit [rowA] (some "X") none).2.2.1
    (by decide) (by decide) (by decide)

/-- C2. The create handler checks `login_id` first: whenever the request's
`login_id` is non-empty and some record already holds it, the response is
the 409 conflict naming `login_id` and its value — regardless of
`person_id` — and the store is left exactly as it was (no insert, no
overwrite). Only when both pre-checks find nothing does the handler
delegate to the service's `create_person`. -/
theorem create_handler_login_conflict (db : List Person) (input : PersonCreate)
    (newId : String) (now : Nat) :
    (input.login_id ≠ "" →
      (get_person_by_mayo_login_id db input.login_id).isSome = true →
      create_person_handler db input newId now =
        (CreateResponse.conflict "login_id" input.login_id, db))
    ∧ ((input.login_id = "" ∨ get_person_by_mayo_login_id db input.login_id = none) →
      (input.person_id = "" ∨ get_person_by_mayo_person_id db input.person_id = none) →
      create_person_handler db input newId now =
        (match create_person db input newId now with
         | Except.ok (p, db2) => (CreateResponse.created p, db2)
         | Except.error e => (CreateResponse.badRequest e, db))) := by
  constructor
  · intro h1 h2
    have hcond : (input.login_id != "" && (get_person_by_mayo_login_id db input.login_id).isSome)
        = true := by
      simp [h2, h1]
    simp [create_person_handler, hcond]
  · intro h1 h2
    have hc1 : (input.login_id != "" && (get_person_by_mayo_login_id db input.login_id).isSome)
        = false := by
      rcases h1 with h | h <;> simp [h]
    have hc2 : (input.person_id != "" && (get_person_by_mayo_person_id db input.person_id).isSome)
        = false := by
      rcases h2 with h | h <;> simp [h]
    simp [create_person_handler, hc1, hc2]

/-- Witness for C2: creating a second record with `login_id = ""` is
impossible to conflict on, but here the duplicate is `rowA`'s non-empty
twin: a request repeating `person_id`-free `login_id` `"jdoe"` against a
store that already holds it yields the 409 and an unchanged store. -/
theorem create_handler_login_conflict_witness :
    create_person_handler [{ rowA with login_id := "jdoe" }]
        { login_id := "jdoe", person_id := "p9" } "b" 1 =
      (CreateResponse.conflict "login_id" "jdoe", [{ rowA with login_id := "jdoe" }]) :=
  (create_handler_login_conflict [{ rowA with login_id := "jdoe" }]
      { login_id := "jdoe", person_id := "p9" } "b" 1).1 (by decide) (by decide)

/-- C3. A successful `update_person` overwrites exactly the fields present
in the patch (`some v` — including `some ""`, which clears the field) and
leaves each absent (`none`) field, together with `id` and `created_at`,
unchanged; when the store clock has not gone backwards the refreshed
`updated_at` is at least the previous one. -/
theorem update_person_merge (db : List Person) (pid : String) (u : PersonUpdate) (now : Nat)
    (p p2 : Person) (db2 : List Person)
    (hfind : get_person_by_id db pid = some p)
    (hrun : update_person db pid u now = (UpdateOutcome.updated p2, db2))
    (hnow : p.updated_at ≤ now) :
    p2.login_id = u.login_id.getD p.login_id
    ∧ p2.person_id = u.person_id.getD p.person_id
    ∧ p2.name_first = u.name_first.getD p.name_first
    ∧ p2.name_middle = u.name_middle.getD p.name_middle
    ∧ p2.name_last = u.name_last.getD p.name_last
    ∧ p2.id = p.id
    ∧ p2.created_at = p.created_at
    ∧ p.updated_at ≤ p2.updated_at := by
  simp only [update_person, hfind] at hrun
  cases hcommit : dbCommitUpdate db (applyPatch p u) now with
  | ok db3 =>
    rw [hcommit] at hrun
    simp only [Prod.mk.injEq, UpdateOutcome.updated.injEq] at hrun
    have hp2 : p2 = { applyPatch p u with updated_at := now } := hrun.1.symm
    subst hp2
    simp [applyPatch, hnow]
  | error e =>
    rw [hcommit] at hrun
    simp at hrun

/-- Witness for C3: patching only `name_first` on the one-row store leaves
every other field unchanged and advances `updated_at`. -/
theorem update_person_merge_witness :
    (let r := update_person [rowA] "a" { name_first := some "Jane" } 5
     r = (UpdateOutcome.updated { rowA with name_first := "Jane", updated_at := 5 },
          [{ rowA with name_first := "Jane", updated_at := 5 }]))
    ∧ ({ rowA with name_first := "Jane", updated_at := 5 } : Person).login_id = rowA.login_id
    ∧ ({ rowA with name_first := "Jane", updated_at := 5 } : Person).name_last = rowA.name_last
    ∧ rowA.updated_at ≤ ({ rowA with name_first := "Jane", updated_at := 5 } : Person).updated_at :=
  ⟨by decide,
   (update_person_merge [rowA] "a" { name_first := some "Jane" } 5 rowA
      { rowA with name_first := "Jane", updated_at := 5 }
      [{ rowA with name_first := "Jane", updated_at := 5 }]
      (by decide) (by decide) (by decide)).1,
   (update_person_merge [rowA] "a" { name_first := some "Jane" } 5 rowA
      { rowA with name_first := "Jane", updated_at := 5 }
      [{ rowA with name_first := "Jane", updated_at := 5 }]
      (by decide) (by decide) (by decide)).2.2.2.2.1,
   (update_person_merge [rowA] "a" { name_first := some "Jane" } 5 rowA
      { rowA with name_first := "Jane", updated_at := 5 }
      [{ rowA with name_first := "Jane", updated_at := 5 }]
      (by decide) (by decide) (by decide)).2.2.2.2.2.2.2⟩

/-- C5. On an existing id, when every field present in the patch either
matches no stored record or matches only the target record itself, the
update handler raises no 409 and delegates to the service (and an absent
field triggers no pre-check at all: its hypothesis holds vacuously);
moreover the delegated path never produces a conflict response. -/
theorem update_handler_self_not_conflict (db : List Person) (pid : String)
    (u : PersonUpdate) (now : Nat)
    (hex : (get_person_by_id db pid).isSome = true)
    (hl : ∀ l q, u.login_id = some l → get_person_by_mayo_login_id db l = some q → q.id = pid)
    (hp : ∀ v q, u.person_id = some v → get_person_by_mayo_person_id db v = some q → q.id = pid) :
    update_person_handler db pid u now = update_delegate db pid u now
    ∧ ∀ f v db2, update_delegate db pid u now ≠ (UpdateResponse.conflict f v, db2) := by
  obtain ⟨p, hp0⟩ := Option.isSome_iff_exists.mp hex
  have hphase2 : update_precheck_person_id db pid u now = update_delegate db pid u now := by
    cases hu : u.person_id with
    | none => simp [update_precheck_person_id, hu]
    | some v =>
      cases hfind : get_person_by_mayo_person_id db v with
      | none => simp [update_precheck_person_id, hu, hfind]
      | some q =>
        have hid : q.id = pid := hp v q hu hfind
        simp [update_precheck_person_id, hu, hfind, hid]
  constructor
  · cases hu : u.login_id with
    | none => simp [update_person_handler, hp0, hu, hphase2]
    | some l =>
      cases hfind : get_person_by_mayo_login_id db l with
      | none => simp [update_person_handler, hp0, hu, hfind, hphase2]
      | some q =>
        have hid : q.id = pid := hl l q hu hfind
        simp [update_person_handler, hp0, hu, hfind, hid, hphase2]
  · intro f v db2
    unfold update_delegate
    cases hrun : update_person db pid u now with
    | mk outcome db3 => cases outcome <;> simp

/-- Witness for C5: the patch re-asserts the target's own `person_id`
(`"p1"` held by `rowA` itself) and a fresh `login_id`; no conflict is
raised and the handler delegates. -/
theorem update_handler_self_not_conflict_witness :
    update_person_handler [rowA] "a" { login_id := some "x", person_id := some "p1" } 7 =
      update_delegate [rowA] "a" { login_id := some "x", person_id := some "p1" } 7 :=
  (update_handler_self_not_conflict [rowA] "a"
      { login_id := some "x", person_id := some "p1" } 7
      (by decide)
      (by intro l q hl hf
          simp at hl
          subst hl
          have hval : get_person_by_mayo_login_id [rowA] "x" = none := by decide
          rw [hval] at hf
          cases hf)
      (by intro v q hv hf
          simp at hv
          subst hv
          have hval : get_person_by_mayo_person_id [rowA] "p1" = some rowA := by decide
          rw [hval] at hf
          injection hf with h
          subst h
          decide)).1

/-- The uniqueness invariant actually enforced by the store schema: all
`id`s, all `login_id`s and all `person_id`s are pairwise distinct — with
no exemption for the empty string. -/
def uniqueIds (db : List Person) : Prop :=
  db.Pairwise (fun p q => p.id ≠ q.id ∧ p.login_id ≠ q.login_id ∧ p.person_id ≠ q.person_id)

theorem uniqueIds_dbInsert (db : List Person) (p : Person) (db2 : List Person)
    (h : uniqueIds db) (hins : dbInsert db p = Except.ok db2) : uniqueIds db2 := by
  unfold dbInsert at hins
  split at hins
  · cases hins
  · rename_i hguard
    injection hins with hdb2
    subst hdb2
    simp only [List.any_eq_true, not_exists, not_and, Bool.not_eq_true] at hguard
    refine List.pairwise_append.mpr ⟨h, List.pairwise_singleton _ _, ?_⟩
    intro a ha b hb
    have hb1 : b = p := by simpa using hb
    subst hb1
    have := hguard a ha
    simp only [Bool.or_eq_false_iff, beq_eq_false_iff_ne, ne_eq] at this
    exact ⟨this.1.1, this.1.2, this.2⟩

theorem uniqueIds_dbCommitUpdate (db : List Person) (p2 : Person) (now : Nat)
    (db2 : List Person)
    (h : uniqueIds db) (hc : dbCommitUpdate db p2 now = Except.ok db2) : uniqueIds db2 := by
  unfold dbCommitUpdate at hc
  split at hc
  · cases hc
  · rename_i hguard
    injection hc with hdb2
    subst hdb2
    simp only [List.any_eq_true, not_exists, not_and, Bool.not_eq_true] at hguard
    have hother : ∀ q ∈ db, q.id ≠ p2.id →
        q.login_id ≠ p2.login_id ∧ q.person_id ≠ p2.person_id := by
      intro q hq hne
      have := hguard q hq
      simp only [Bool.and_eq_false_iff, bne_eq_false_iff_eq, Bool.or_eq_false_iff,
        beq_eq_false_iff_ne, ne_eq] at this
      rcases this with h1 | h2
      · exact absurd h1 hne
      · exact h2
    unfold uniqueIds at h ⊢
    rw [List.pairwise_map]
    refine h.imp_of_mem ?_
    intro a b ha hb hr
    obtain ⟨hid, hlid, hpid⟩ := hr
    by_cases hA : a.id = p2.id
    · by_cases hB : b.id = p2.id
      · exact absurd (hA.trans hB.symm) hid
      · have hbo := hother b hb hB
        rw [if_pos (by simp [hA]), if_neg (by simp [hB])]
        exact ⟨fun hh => hB hh.symm, fun hh => hbo.1 hh.symm, fun hh => hbo.2 hh.symm⟩
    · by_cases hB : b.id = p2.id
      · have hao := hother a ha hA
        rw [if_neg (by simp [hA]), if_pos (by simp [hB])]
        exact ⟨fun hh => hA hh, hao.1, hao.2⟩
      · rw [if_neg (by simp [hA]), if_neg (by simp [hB])]
        exact ⟨hid, hlid, hpid⟩

theorem create_handler_state (db : List Person) (input : PersonCreate)
    (newId : String) (now : Nat) :
    (create_person_handler db input newId now).2 = db ∨
    ∃ p, dbInsert db p = Except.ok (create_person_handler db input newId now).2 := by
  unfold create_person_handler
  split
  · left; rfl
  · split
    · left; rfl
    · cases hins : dbInsert db
          { id := newId, login_id := input.login_id, person_id := input.person_id,
            name_first := input.name_first, name_middle := input.name_middle,
            name_last := input.name_last, created_at := now, updated_at := now } with
      | ok db2 =>
        right
        exact ⟨{ id := newId, login_id := input.login_id, person_id := input.person_id,
                 name_first := input.name_first, name_middle := input.name_middle,
                 name_last := input.name_last, created_at := now, updated_at := now },
               by simp [create_person, hins]⟩
      | error e => left; simp [create_person, hins]

theorem update_person_state (db : List Person) (pid : String) (u : PersonUpdate) (now : Nat) :
    (update_person db pid u now).2 = db ∨
    ∃ p2, dbCommitUpdate db p2 now = Except.ok (update_person db pid u now).2 := by
  cases hfind : get_person_by_id db pid with
  | none => left; simp [update_person, hfind]
  | some p =>
    cases hc : dbCommitUpdate db (applyPatch p u) now with
    | ok db2 => right; exact ⟨applyPatch p u, by simp [update_person, hfind, hc]⟩
    | error e => left; simp [update_person, hfind, hc]

theorem update_handler_state (db : List Person) (pid : String) (u : PersonUpdate) (now : Nat) :
    (update_person_handler db pid u now).2 = db ∨
    (update_person_handler db pid u now).2 = (update_person db pid u now).2 := by
  have hdel : (update_delegate db pid u now).2 = (update_person db pid u now).2 := by
    unfold update_delegate
    cases hrun : update_person db pid u now with
    | mk outcome db3 => cases outcome <;> rfl
  have hpre : (update_precheck_person_id db pid u now).2 = db ∨
      (update_precheck_person_id db pid u now).2 = (update_person db pid u now).2 := by
    cases hup : u.person_id with
    | none =>
      right
      have heq : update_precheck_person_id db pid u now = update_delegate db pid u now := by
        simp [update_precheck_person_id, hup]
      rw [heq]; exact hdel
    | some v =>
      cases hfind : get_person_by_mayo_person_id db v with
      | none =>
        right
        have heq : update_precheck_person_id db pid u now = update_delegate db pid u now := by
          simp [update_precheck_person_id, hup, hfind]
        rw [heq]; exact hdel
      | some q =>
        by_cases hq : (q.id != pid) = true
        · left
          have heq : update_precheck_person_id db pid u now =
              (UpdateResponse.conflict "person_id" v, db) := by
            simp [update_precheck_person_id, hup, hfind, hq]
          rw [heq]
        · right
          have heq : update_precheck_person_id db pid u now = update_delegate db pid u now := by
            simp [update_precheck_person_id, hup, hfind, hq]
          rw [heq]; exact hdel
  cases hex : get_person_by_id db pid with
  | none =>
    left
    have heq : update_person_handler db pid u now = (UpdateResponse.notFound, db) := by
      simp [update_person_handler, hex]
    rw [heq]
  | some p =>
    cases hul : u.login_id with
    | none =>
      have heq : update_person_handler db pid u now = update_precheck_person_id db pid u now := by
        simp [update_person_handler, hex, hul]
      rw [heq]; exact hpre
    | some l =>
      cases hfind : get_person_by_mayo_login_id db l with
      | none =>
        have heq : update_person_handler db pid u now =
            update_precheck_person_id db pid u now := by
          simp [update_person_handler, hex, hul, hfind]
        rw [heq]; exact hpre
      | some q =>
        by_cases hq : (q.id != pid) = true
        · left
          have heq : update_person_handler db pid u now =
              (UpdateResponse.conflict "login_id" l, db) := by
            simp [update_person_handler, hex, hul, hfind, hq]
          rw [heq]
        · have heq : update_person_handler db pid u now =
              update_precheck_person_id db pid u now := by
            simp [update_person_handler, hex, hul, hfind, hq]
          rw [heq]; exact hpre

/-- C1 (amended): both identifier columns are unique with NO exemption for
the empty string: starting from a store whose `id`s, `login_id`s and
`person_id`s are pairwise distinct (empty values included), every create,
update and delete leaves them pairwise distinct — a second record with an
empty `login_id` can never appear, because the store constraint rejects
it. -/
theorem uniqueness_invariant_preserved (db : List Person) (h : uniqueIds db) :
    (∀ input newId now, uniqueIds (create_person_handler db input newId now).2)
    ∧ (∀ pid u now, uniqueIds (update_person_handler db pid u now).2)
    ∧ (∀ pid, uniqueIds (delete_person db pid).2) := by
  refine ⟨?_, ?_, ?_⟩
  · intro input newId now
    rcases create_handler_state db input newId now with hs | ⟨p, hs⟩
    · rw [hs]; exact h
    · exact uniqueIds_dbInsert db p _ h hs
  · intro pid u now
    rcases update_handler_state db pid u now with hs | hs
    · rw [hs]; exact h
    · rw [hs]
      rcases update_person_state db pid u now with hs2 | ⟨p2, hs2⟩
      · rw [hs2]; exact h
      · exact uniqueIds_dbCommitUpdate db p2 now _ h hs2
  · intro pid
    unfold delete_person
    cases get_person_by_id db pid with
    | none => exact h
    | some p =>
      unfold uniqueIds at h ⊢
      exact h.sublist (List.filter_sublist db)

/-- Witness for C1's amended invariant on a concrete one-row store. -/
theorem uniqueness_invariant_preserved_witness :
    uniqueIds (create_person_handler [rowA] { login_id := "x", person_id := "p2" } "b" 1).2 :=
  (uniqueness_invariant_preserved [rowA]
      (by unfold uniqueIds; exact List.pairwise_singleton _ _)).1
    { login_id := "x", person_id := "p2" } "b" 1

/-- Counterexample to C1 as stated: `rowA` already holds the empty
`login_id`; a create request that also carries an empty `login_id` (and a
fresh `person_id` and fresh primary key, so nothing else can clash) does
NOT succeed — the store's UNIQUE constraint rejects it at insert and the
handler answers 400 with the store unchanged, refuting "multiple records
may simultaneously hold an empty `login_id` without any conflict or
failure". -/
theorem empty_login_not_exempt_cex :
    rowA.login_id = "" ∧ reqEmptyLogin.login_id = ""
    ∧ reqEmptyLogin.person_id ≠ rowA.person_id ∧ "b" ≠ rowA.id
    ∧ create_person_handler [rowA] reqEmptyLogin "b" 1 =
        (CreateResponse.badRequest "Person creation failed: UNIQUE constraint failed", [rowA]) := by
  decide

theorem likeMatch_pct (s : List Char) : likeMatch ['%'] s = true := by
  induction s with
  | nil => simp [likeMatch]
  | cons d s2 ih => simp [likeMatch, ih]

theorem likeMatch_lit_pct (q : List Char) (hq : noWild q = true) :
    ∀ s : List Char, likeMatch (q ++ ['%']) s = startsWithL q s := by
  induction q with
  | nil => intro s; simp [startsWithL, likeMatch_pct]
  | cons c q2 ih =>
    intro s
    simp only [noWild, List.all_cons, Bool.and_eq_true, Bool.not_eq_true',
      beq_eq_false_iff_ne, ne_eq] at hq
    obtain ⟨⟨hc1, hc2⟩, hq2⟩ := hq
    have ih2 := ih (by simp [noWild, hq2])
    cases s with
    | nil => simp [likeMatch, startsWithL, hc1]
    | cons d s2 =>
      have hcu : (c == '_') = false := by simp [hc2]
      simp [likeMatch, startsWithL, hc1, hcu, ih2 s2]

theorem likeMatch_pct_lit_pct (q : List Char) (hq : noWild q = true) :
    ∀ s : List Char, likeMatch ('%' :: (q ++ ['%'])) s = substrL q s := by
  intro s
  induction s with
  | nil => simp [likeMatch, substrL, likeMatch_lit_pct q hq]
  | cons d s2 ih => simp [likeMatch, substrL, likeMatch_lit_pct q hq, ih]

theorem char_toNat_ofNat_valid (n : Nat) (h : n.isValidChar) : (Char.ofNat n).toNat = n := by
  simp [Char.ofNat, dif_pos h, Char.ofNatAux, Char.toNat]
  rfl

theorem toLower_eq_self_or_alpha (c : Char) :
    Char.toLower c = c ∨ (97 ≤ (Char.toLower c).toNat ∧ (Char.toLower c).toNat ≤ 122) := by
  have hdef : Char.toLower c =
      if c.toNat ≥ 65 ∧ c.toNat ≤ 90 then Char.ofNat (c.toNat + 32) else c := rfl
  rw [hdef]
  by_cases h : c.toNat ≥ 65 ∧ c.toNat ≤ 90
  · rw [if_pos h]
    right
    have hvalid : (c.toNat + 32).isValidChar := by
      left
      omega
    rw [char_toNat_ofNat_valid _ hvalid]
    omega
  · rw [if_neg h]
    left
    rfl

theorem noWild_lowerChars (q : String) (h : noWild q.toList = true) :
    noWild (lowerChars q) = true := by
  unfold lowerChars
  simp only [noWild, List.all_map, List.all_eq_true, Function.comp_apply,
    Bool.and_eq_true, Bool.not_eq_true', beq_eq_false_iff_ne, ne_eq] at h ⊢
  intro c hc
  obtain ⟨h1, h2⟩ := h c hc
  rcases toLower_eq_self_or_alpha c with heq | ⟨hlo, hhi⟩
  · rw [heq]; exact ⟨h1, h2⟩
  · constructor
    · intro hbad
      have : (Char.toLower c).toNat = 37 := by rw [hbad]; rfl
      omega
    · intro hbad
      have : (Char.toLower c).toNat = 95 := by rw [hbad]; rfl
      omega

theorem nameLike_eq_containsCI (q s : String) (h : noWild q.toList = true) :
    nameLike q s = containsCI q s := by
  unfold nameLike containsCI
  exact likeMatch_pct_lit_pct (lowerChars q) (noWild_lowerChars q h) (lowerChars s)

/-- C9 (amended): for a query containing no `LIKE` metacharacter (`%` or
`_`), `search_people_by_name` returns exactly the page of records whose
`name_first` OR `name_middle` OR `name_last` has the query as a
case-insensitive substring; in particular a record with
`name_first = "John"` matches the query `"ohn"`. -/
theorem search_is_ci_substring :
    (∀ (db : List Person) (q : String) (skip limit : Nat), noWild q.toList = true →
      search_people_by_name db q skip limit =
        ((db.filter (fun p => containsCI q p.name_first || containsCI q p.name_middle ||
            containsCI q p.name_last)).drop skip).take limit)
    ∧ (∀ p : Person, p.name_first = "John" → personNameMatch "ohn" p = true) := by
  constructor
  · intro db q skip limit hq
    unfold search_people_by_name
    have hfilter : db.filter (personNameMatch q) =
        db.filter (fun p => containsCI q p.name_first || containsCI q p.name_middle ||
          containsCI q p.name_last) := by
      refine List.filter_congr ?_
      intro p _
      unfold personNameMatch
      rw [nameLike_eq_containsCI _ _ hq, nameLike_eq_containsCI _ _ hq,
        nameLike_eq_containsCI _ _ hq]
    rw [hfilter]
  · intro p hname
    have hohn : nameLike "ohn" "John" = true := by
      rw [nameLike_eq_containsCI "ohn" "John" (by decide)]
      decide
    simp [personNameMatch, hname, hohn]

/-- Witness for C9's amended theorem on a concrete store and the
wildcard-free query `"ohn"`. -/
theorem search_is_ci_substring_witness :
    search_people_by_name [rowA] "ohn" 0 100 =
      (([rowA].filter (fun p => containsCI "ohn" p.name_first || containsCI "ohn" p.name_middle ||
          containsCI "ohn" p.name_last)).drop 0).take 100 :=
  search_is_ci_substring.1 [rowA] "ohn" 0 100 (by decide)

/-- Counterexample to C9 as stated: with query `"%"` the search returns
`rowA` although `"%"` is not a case-insensitive substring of any of its
three name fields — the query string is interpolated into the `ILIKE`
pattern, so it is not plain substring matching. -/
theorem search_wildcard_cex :
    search_people_by_name [rowA] "%" 0 100 = [rowA]
    ∧ containsCI "%" rowA.name_first = false
    ∧ containsCI "%" rowA.name_middle = false
    ∧ containsCI "%" rowA.name_last = false := by
  refine ⟨?_, by decide, by decide, by decide⟩
  simp [search_people_by_name, personNameMatch, nameLike, lowerChars, likeMatch, rowA]

theorem likeMatch_pct3 (s : List Char) : likeMatch ['%', '%', '%'] s = true := by
  cases s with
  | nil => simp [likeMatch]
  | cons d s2 => simp [likeMatch, likeMatch_pct]

/-- C10. `search_people_by_name` is ILIKE-pattern matching, not plain
substring matching: the query `"%"` matches every record (the search
returns the whole page), even though `"%"` is not a substring of e.g.
`"John"`. -/
theorem search_wildcard_semantics :
    (∀ (db : List Person) (limit : Nat), search_people_by_name db "%" 0 limit = db.take limit)
    ∧ (∀ p : Person, personNameMatch "%" p = true)
    ∧ containsCI "%" "John" = false := by
  have hall : ∀ p : Person, personNameMatch "%" p = true := by
    intro p
    have hpat : ∀ s : String, nameLike "%" s = true := by
      intro s
      have : ('%' :: (lowerChars "%" ++ ['%'])) = ['%', '%', '%'] := by decide
      unfold nameLike
      rw [this]
      exact likeMatch_pct3 (lowerChars s)
    simp [personNameMatch, hpat]
  refine ⟨?_, hall, by decide⟩
  intro db limit
  unfold search_people_by_name
  rw [List.filter_eq_self.mpr (fun a _ => hall a), List.drop_zero]

end TeamComposer
